import Mathlib

/-!
Shallow embedding of the `useEventer` React hook (src/src/index.ts of the
use-eventer package) and of the variant hook `useListener`
(src/unnamed/part_001).

The hook attaches one shared event handler to a collection of elements:

* `ref` — one ref or a list of refs; each ref's `current` either holds an
  element or is `null`.  We model an element as a `Nat` identity and a
  resolved ref as `Option Nat`.
* `event` — one event type or a list of event types (modelled as `String`).
* `oneToOne` — `true` = PAIRED topology (`refs[i] ↔ events[i]`),
  `false` (default) = BROADCAST topology (every ref × every event type).
* `callHandlerOnce` / `callHandlerOnEach` — optional extra handler calls.
* `listenerOptions` — spread after `signal: controller.signal`, so a
  caller-supplied `listenerOptions.signal` overrides the internal
  controller's signal on every registration.  Only the presence of such a
  user signal matters to the control flow; we model it as a Bool.

The effect body (`useEffect` callback) and the cleanup closure it returns
perform a sequence of observable primitive actions; we embed the code as a
generator of such action traces and interpret traces against a DOM state.
-/

/-- Which abort signal a registration was made under: the hook's internal
`AbortController`'s signal, or a caller-supplied `listenerOptions.signal`
(which, being spread after `signal: controller.signal`, overrides it). -/
inductive Sig where
  | ctrl : Sig
  | user : Sig
deriving DecidableEq, Repr

/-- Observable primitive actions performed by the hook body, the effect body
and the cleanup closure, in order: invoking the callback factory
(`callback()`), invoking the produced handler (`handler()`, no argument),
`addEventListener` / `removeEventListener` on a present element,
`controller.abort()`, and `throw new Error(msg)`. -/
inductive Effect where
  | callFactory : Effect
  | callHandler : Effect
  | addListener : Nat → String → Sig → Effect
  | removeListener : Nat → String → Effect
  | abortController : Effect
  | throwErr : String → Effect
deriving DecidableEq, Repr

/-- One activation of the hook, with refs already resolved to their
`current` values at setup time (line 72: `refs.map((rf) => rf.current)`). -/
structure HookInput where
  refs : List (Option Nat)
  events : List String
  oneToOne : Bool
  callHandlerOnce : Bool
  callHandlerOnEach : Bool
  userSignal : Bool
deriving DecidableEq, Repr

/-- The message of the error thrown on a PAIRED count mismatch
(src/src/index.ts lines 61-63; the message's "false" is a typo in the
source, faithfully reproduced). -/
def errMsg : String :=
  "When oneToOne is set to false, the number of refs and events must be equal."

/-- The effective signal of each registration: `{ signal: controller.signal,
...listenerOptions }` — the spread puts a user-supplied signal after the
controller's, so it wins when present. -/
def effSig (userSig : Bool) : Sig :=
  if userSig then Sig.user else Sig.ctrl

/-- PAIRED registration loop (src/src/index.ts lines 75-81):
`for (let i = 0; i < nodes.length; i++) { if (callHandlerOnEach) handler();
nodes[i]?.addEventListener(events[i], handler, {...}) }`.
The loop is reached only after the guard has ensured
`refs.length = events.length`, where the indexed loop coincides with this
simultaneous recursion on the two lists. -/
def pairedSetup (onEach : Bool) (sg : Sig) :
    List (Option Nat) → List String → List Effect
  | [], _ => []
  | _ :: _, [] => []
  | n :: ns, e :: es =>
      (if onEach then [Effect.callHandler] else []) ++
      (match n with
       | some el => [Effect.addListener el e sg]
       | none => []) ++
      pairedSetup onEach sg ns es

/-- BROADCAST registration loops (src/src/index.ts lines 85-93):
`for (let node of nodes) for (let evt of events) { if (callHandlerOnEach)
handler(); node?.addEventListener(evt, handler, {...}) }`. -/
def broadcastSetup (onEach : Bool) (sg : Sig)
    (nodes : List (Option Nat)) (events : List String) : List Effect :=
  nodes.flatMap (fun n =>
    events.flatMap (fun evt =>
      (if onEach then [Effect.callHandler] else []) ++
      (match n with
       | some el => [Effect.addListener el evt sg]
       | none => [])))

/-- PAIRED explicit-removal loop of the cleanup closure (src/src/index.ts
lines 102-106): `for (let i ...) nodes[i]?.removeEventListener(events[i],
handler)`. -/
def pairedTeardown : List (Option Nat) → List String → List Effect
  | n :: ns, e :: es =>
      (match n with
       | some el => [Effect.removeListener el e]
       | none => []) ++
      pairedTeardown ns es
  | _, _ => []

/-- BROADCAST explicit-removal loops of the cleanup closure
(src/src/index.ts lines 109-112): `for (let node of nodes) for (let evt of
events) node?.removeEventListener(evt, handler)`. -/
def broadcastTeardown (nodes : List (Option Nat)) (events : List String) :
    List Effect :=
  nodes.flatMap (fun n =>
    events.flatMap (fun evt =>
      match n with
      | some el => [Effect.removeListener el evt]
      | none => []))

/-- The cleanup closure returned at the end of the effect body
(src/src/index.ts lines 95-113).  It is returned only on the BROADCAST
path — the PAIRED branch already returned `() => controller.abort()` at
line 83 — so its `if (oneToOne)` branch (lines 101-106) is dead code,
embedded here nevertheless for fidelity. -/
def cleanupClosure (inp : HookInput) (nodes : List (Option Nat)) :
    List Effect :=
  if !inp.userSignal then [Effect.abortController]
  else if inp.oneToOne then pairedTeardown nodes inp.events
  else broadcastTeardown nodes inp.events

/-- The whole activation of `useEventer` (src/src/index.ts lines 44-116):
first component — the trace of actions performed at setup (the synchronous
guard, then the effect body; on a guard throw the effect body never runs);
second component — `some` trace of the returned cleanup closure's actions
when setup completed, `none` when setup threw.  The cleanup acts on the
`nodes` snapshot taken at line 72. -/
def useEventer (inp : HookInput) : List Effect × Option (List Effect) :=
  if inp.oneToOne && inp.refs.length != inp.events.length then
    ([Effect.throwErr errMsg], none)
  else
    let setupHead := Effect.callFactory ::
      (if inp.callHandlerOnce then [Effect.callHandler] else [])
    let nodes := inp.refs
    if inp.oneToOne then
      (setupHead ++
         pairedSetup inp.callHandlerOnEach (effSig inp.userSignal)
           nodes inp.events,
       some [Effect.abortController])
    else
      (setupHead ++
         broadcastSetup inp.callHandlerOnEach (effSig inp.userSignal)
           nodes inp.events,
       some (cleanupClosure inp nodes))

/-- Cleanup closure of the variant hook `useListener`
(src/unnamed/part_001 lines 93-109).  Unlike `useEventer`, it re-reads
`refs[i]?.current` at the moment the cleanup runs; `refsNow` is the value
each ref resolves to at that moment. -/
def useListenerCleanup (inp : HookInput) (refsNow : List (Option Nat)) :
    List Effect :=
  if inp.userSignal then
    (if inp.oneToOne then pairedTeardown refsNow inp.events
     else broadcastTeardown refsNow inp.events)
  else [Effect.abortController]

/-- The whole activation of the variant hook `useListener`
(src/unnamed/part_001 lines 44-112), with the cleanup run at a time the
refs resolve to `refsNow`.  Setup reads `refs[i]?.current` inline, which at
setup time resolves to `inp.refs`; the PAIRED branch returns
`() => controller.abort()` early exactly as `useEventer` does. -/
def useListenerRun (inp : HookInput) (refsNow : List (Option Nat)) :
    List Effect × Option (List Effect) :=
  if inp.oneToOne && inp.refs.length != inp.events.length then
    ([Effect.throwErr errMsg], none)
  else
    let setupHead := Effect.callFactory ::
      (if inp.callHandlerOnce then [Effect.callHandler] else [])
    if inp.oneToOne then
      (setupHead ++
         pairedSetup inp.callHandlerOnEach (effSig inp.userSignal)
           inp.refs inp.events,
       some [Effect.abortController])
    else
      (setupHead ++
         broadcastSetup inp.callHandlerOnEach (effSig inp.userSignal)
           inp.refs inp.events,
       some (useListenerCleanup inp refsNow))

/-! ## Observers on traces -/

/-- Is an action an `addEventListener` call? -/
def isAdd : Effect → Bool
  | Effect.addListener _ _ _ => true
  | _ => false

/-- Is an action a `removeEventListener` call? -/
def isRemove : Effect → Bool
  | Effect.removeListener _ _ => true
  | _ => false

/-- Is an action an invocation of the shared handler? -/
def isHandlerCall : Effect → Bool
  | Effect.callHandler => true
  | _ => false

/-- Is an action an invocation of the callback factory? -/
def isFactoryCall : Effect → Bool
  | Effect.callFactory => true
  | _ => false

/-- Is an action a thrown error? -/
def isThrow : Effect → Bool
  | Effect.throwErr _ => true
  | _ => false

/-- The (element, event-type) pairs of the `addEventListener` calls of a
trace, in order. -/
def adds : List Effect → List (Nat × String)
  | [] => []
  | Effect.addListener el evt _ :: rest => (el, evt) :: adds rest
  | _ :: rest => adds rest

/-- The (element, event-type) pairs of the `removeEventListener` calls of a
trace, in order. -/
def removes : List Effect → List (Nat × String)
  | [] => []
  | Effect.removeListener el evt :: rest => (el, evt) :: removes rest
  | _ :: rest => removes rest

/-- Number of (target, event-type) pairs the registration loops iterate
over: `refs.length` under PAIRED, `refs.length * events.length` under
BROADCAST. -/
def numPairs (inp : HookInput) : Nat :=
  if inp.oneToOne then inp.refs.length
  else inp.refs.length * inp.events.length

/-- Every `addEventListener` call of the trace is immediately preceded by a
handler invocation (auxiliary state: the previous action). -/
def addsPrecededFrom (prev : Effect) : List Effect → Bool
  | [] => true
  | e :: rest => (!isAdd e || isHandlerCall prev) && addsPrecededFrom e rest

/-- Every `addEventListener` call of the trace is immediately preceded by a
handler invocation. -/
def addsPreceded : List Effect → Bool
  | [] => true
  | e :: rest => !isAdd e && addsPrecededFrom e rest

/-! ## DOM state and trace interpretation -/

/-- A live registration: element, event type, and the abort signal it was
registered under. -/
structure Listener where
  el : Nat
  evt : String
  sg : Sig
deriving DecidableEq, Repr

/-- The set of live registrations made with the shared handler, as an
ordered duplicate-free list. -/
abbrev DomState := List Listener

/-- `addEventListener` semantics: the DOM ignores a second registration of
the same (element, event type, callback, capture) — the handler is shared
and capture defaults, so identity is the (element, event type) pair; the
original registration, with its original signal, is retained. -/
def addL (s : DomState) (el : Nat) (evt : String) (sg : Sig) : DomState :=
  if s.any (fun l => l.el == el && l.evt == evt) then s
  else s ++ [⟨el, evt, sg⟩]

/-- `removeEventListener` semantics: drop the registration of this
(element, event type) pair with the shared handler, if any. -/
def removeL (s : DomState) (el : Nat) (evt : String) : DomState :=
  s.filter (fun l => !(l.el == el && l.evt == evt))

/-- `controller.abort()` semantics: every registration made under the
internal controller's signal is removed; registrations made under a
caller-supplied signal are untouched. -/
def abortL (s : DomState) : DomState :=
  s.filter (fun l => l.sg != Sig.ctrl)

/-- Interpret one action against the DOM state. -/
def runEffect (s : DomState) : Effect → DomState
  | Effect.addListener el evt sg => addL s el evt sg
  | Effect.removeListener el evt => removeL s el evt
  | Effect.abortController => abortL s
  | _ => s

/-- Interpret a trace against the DOM state, left to right. -/
def runEffects (s : DomState) (es : List Effect) : DomState :=
  es.foldl runEffect s

/-- Would dispatching event `evt` to element `el` invoke the shared
handler in state `s`? -/
def triggers (s : DomState) (el : Nat) (evt : String) : Bool :=
  s.any (fun l => l.el == el && l.evt == evt)

/-- Fallible interpretation of one action: `addEventListener`,
`removeEventListener` and `abort` never throw (DOM guarantees), the
user-written handler and factory may (`hf` = the handler throws when
invoked, `ff` = the factory throws). -/
def execEffect (ff hf : Bool) (s : DomState) : Effect → Except String DomState
  | Effect.callFactory =>
      if ff then Except.error "callback factory threw" else Except.ok s
  | Effect.callHandler =>
      if hf then Except.error "handler threw" else Except.ok s
  | Effect.addListener el evt sg => Except.ok (addL s el evt sg)
  | Effect.removeListener el evt => Except.ok (removeL s el evt)
  | Effect.abortController => Except.ok (abortL s)
  | Effect.throwErr msg => Except.error msg

/-- Fallible interpretation of a trace, stopping at the first error. -/
def execEffects (ff hf : Bool) (s : DomState) :
    List Effect → Except String DomState
  | [] => Except.ok s
  | e :: es =>
      match execEffect ff hf s e with
      | Except.ok s2 => execEffects ff hf s2 es
      | Except.error m => Except.error m

/-- Every registration in a trace was made under signal `sg`. -/
def allAddsWithSig (sg : Sig) (es : List Effect) : Bool :=
  es.all (fun e =>
    match e with
    | Effect.addListener _ _ sg2 => sg2 == sg
    | _ => true)

/-! ## Basic facts about the observers -/

lemma isHandlerCall_iff (e : Effect) :
    isHandlerCall e = true ↔ e = Effect.callHandler := by
  cases e <;> simp [isHandlerCall]

lemma isAdd_iff (e : Effect) :
    isAdd e = true ↔ ∃ el evt sg, e = Effect.addListener el evt sg := by
  cases e <;> simp [isAdd]

lemma isRemove_iff (e : Effect) :
    isRemove e = true ↔ ∃ el evt, e = Effect.removeListener el evt := by
  cases e <;> simp [isRemove]

lemma adds_cons_of_not_add (e : Effect) (rest : List Effect)
    (h : isAdd e = false) : adds (e :: rest) = adds rest := by
  cases e <;> simp_all [adds, isAdd]

lemma adds_append (xs ys : List Effect) :
    adds (xs ++ ys) = adds xs ++ adds ys := by
  induction xs with
  | nil => rfl
  | cons e rest ih => cases e <;> simp [adds, ih]

lemma removes_append (xs ys : List Effect) :
    removes (xs ++ ys) = removes xs ++ removes ys := by
  induction xs with
  | nil => rfl
  | cons e rest ih => cases e <;> simp [removes, ih]

/-- Every action of the PAIRED registration loop is a handler call or an
`addEventListener` call. -/
lemma mem_pairedSetup_shape (onEach : Bool) (sg : Sig) :
    ∀ (ns : List (Option Nat)) (es : List String) (e : Effect),
      e ∈ pairedSetup onEach sg ns es →
      isHandlerCall e = true ∨ isAdd e = true := by
  intro ns
  induction ns with
  | nil => intro es e he; simp [pairedSetup] at he
  | cons n ns ih =>
    intro es e he
    cases es with
    | nil => simp [pairedSetup] at he
    | cons ev evs =>
      simp only [pairedSetup, List.mem_append] at he
      rcases he with (he | he) | he
      · rcases onEach <;> simp_all [isHandlerCall]
      · rcases n <;> simp_all [isAdd]
      · exact ih evs e he

/-- Every action of the BROADCAST registration loops is a handler call or
an `addEventListener` call. -/
lemma mem_broadcastSetup_shape (onEach : Bool) (sg : Sig)
    (nodes : List (Option Nat)) (events : List String) (e : Effect)
    (he : e ∈ broadcastSetup onEach sg nodes events) :
    isHandlerCall e = true ∨ isAdd e = true := by
  simp only [broadcastSetup, List.mem_flatMap] at he
  obtain ⟨n, _, evt, _, he⟩ := he
  rw [List.mem_append] at he
  rcases he with he | he
  · rcases onEach <;> simp_all [isHandlerCall]
  · rcases n <;> simp_all [isAdd]

/-- Every action of the BROADCAST removal loops is a
`removeEventListener` call. -/
lemma mem_broadcastTeardown_shape (nodes : List (Option Nat))
    (events : List String) (e : Effect)
    (he : e ∈ broadcastTeardown nodes events) : isRemove e = true := by
  simp only [broadcastTeardown, List.mem_flatMap] at he
  obtain ⟨n, _, evt, _, he⟩ := he
  rcases n <;> simp_all [isRemove]

/-! ## Unfolding the hook under the guard -/

lemma useEventer_mismatch (inp : HookInput)
    (h1 : inp.oneToOne = true) (h2 : inp.refs.length ≠ inp.events.length) :
    useEventer inp = ([Effect.throwErr errMsg], none) := by
  rw [useEventer]
  simp [h1, h2]

lemma useEventer_paired (inp : HookInput)
    (h1 : inp.oneToOne = true) (h2 : inp.refs.length = inp.events.length) :
    useEventer inp =
      (Effect.callFactory ::
        ((if inp.callHandlerOnce then [Effect.callHandler] else []) ++
          pairedSetup inp.callHandlerOnEach (effSig inp.userSignal)
            inp.refs inp.events),
       some [Effect.abortController]) := by
  rw [useEventer]
  simp [h1, h2]

lemma useEventer_broadcast (inp : HookInput) (h1 : inp.oneToOne = false) :
    useEventer inp =
      (Effect.callFactory ::
        ((if inp.callHandlerOnce then [Effect.callHandler] else []) ++
          broadcastSetup inp.callHandlerOnEach (effSig inp.userSignal)
            inp.refs inp.events),
       some (cleanupClosure inp inp.refs)) := by
  rw [useEventer]
  simp [h1]

/-- Setup completing (a cleanup closure being returned) is exactly the
guard not firing. -/
lemma useEventer_isSome_iff (inp : HookInput) :
    (useEventer inp).2.isSome = true ↔
      (inp.oneToOne = true → inp.refs.length = inp.events.length) := by
  by_cases h1 : inp.oneToOne = true
  · by_cases h2 : inp.refs.length = inp.events.length
    · rw [useEventer_paired inp h1 h2]; simp [h1, h2]
    · rw [useEventer_mismatch inp h1 h2]; simp [h1, h2]
  · rw [useEventer_broadcast inp (by simpa using h1)]; simp [h1]

/-! ## Claim theorems -/

/-- C3: setup throws the ConfigurationMismatch error exactly when the
topology is PAIRED (`oneToOne`) and the ref count differs from the event
count; when it throws, the whole setup for the cycle is the throw alone —
no registration is performed, the callback factory is not invoked, and no
cleanup closure is returned.  No other input makes setup throw. -/
theorem C3_mismatch_guard (inp : HookInput) :
    ((useEventer inp).1.any isThrow = true ↔
      inp.oneToOne = true ∧ inp.refs.length ≠ inp.events.length) ∧
    (inp.oneToOne = true → inp.refs.length ≠ inp.events.length →
      useEventer inp = ([Effect.throwErr errMsg], none)) := by
  by_cases h1 : inp.oneToOne = true
  · by_cases h2 : inp.refs.length = inp.events.length
    · rw [useEventer_paired inp h1 h2]
      constructor
      · simp only [List.any_cons, List.any_append, isThrow]
        constructor
        · intro h
          rcases Bool.or_eq_true _ _ |>.mp h with h | h
          · cases h
          · rcases Bool.or_eq_true _ _ |>.mp h with h | h
            · revert h; rcases inp.callHandlerOnce <;> simp [isThrow]
            · rw [List.any_eq_true] at h
              obtain ⟨e, he, hthr⟩ := h
              rcases mem_pairedSetup_shape _ _ _ _ e he with hs | hs <;>
                rcases e <;> simp_all [isHandlerCall, isAdd, isThrow]
        · rintro ⟨_, h⟩; exact absurd h2 h
      · intro _ h; exact absurd h2 h
    · rw [useEventer_mismatch inp h1 h2]
      simp [isThrow, h1, h2]
  · rw [useEventer_broadcast inp (by simpa using h1)]
    constructor
    · simp only [List.any_cons, List.any_append, isThrow]
      constructor
      · intro h
        rcases Bool.or_eq_true _ _ |>.mp h with h | h
        · cases h
        · rcases Bool.or_eq_true _ _ |>.mp h with h | h
          · revert h; rcases inp.callHandlerOnce <;> simp [isThrow]
          · rw [List.any_eq_true] at h
            obtain ⟨e, he, hthr⟩ := h
            rcases mem_broadcastSetup_shape _ _ _ _ e he with hs | hs <;>
              rcases e <;> simp_all [isHandlerCall, isAdd, isThrow]
      · rintro ⟨h, _⟩; exact absurd h h1
    · intro h; exact absurd h h1

/-- Witness for C3 at a concrete mismatching input: two refs, one event,
PAIRED topology — setup is exactly the thrown error. -/
theorem C3_mismatch_guard_witness :
    useEventer ⟨[some 0, some 1], ["click"], true, false, false, false⟩ =
      ([Effect.throwErr errMsg], none) :=
  (C3_mismatch_guard
      ⟨[some 0, some 1], ["click"], true, false, false, false⟩).2
    rfl (by decide)

/-- C1 (code bug): with a caller-supplied cancellation signal and PAIRED
topology, the returned teardown is the early-returned
`() => controller.abort()` (src/src/index.ts line 83), not the explicit
per-index removal of lines 101-106 (which is unreachable).  The abort is
inert — the single registration was made under the user signal — so after
setup (one ref holding element 0, event "click") and teardown the binding
is still live: dispatching "click" to element 0 still invokes the handler,
and the teardown trace contains no `removeEventListener` at all. -/
theorem C1_paired_user_signal_teardown_bug :
    useEventer ⟨[some 0], ["click"], true, false, false, true⟩ =
      ([Effect.callFactory, Effect.addListener 0 "click" Sig.user],
       some [Effect.abortController]) ∧
    runEffects
        (runEffects []
          [Effect.callFactory, Effect.addListener 0 "click" Sig.user])
        [Effect.abortController] = [⟨0, "click", Sig.user⟩] ∧
    triggers [⟨0, "click", Sig.user⟩] 0 "click" = true ∧
    removes [Effect.abortController] = [] :=
  ⟨rfl, rfl, rfl, rfl⟩

/-- Counterexample to C2 as stated: BROADCAST, one ref whose element is
absent, one event, call-per-binding flag set — the handler is invoked once
during setup (the `if (callHandlerOnEach) handler()` runs before the
optional-chained registration) although zero pairs were registered. -/
theorem C2_absent_target_still_invokes :
    ((useEventer ⟨[none], ["click"], false, false, true, false⟩).1.countP
        isHandlerCall = 1) ∧
    List.length
        (adds (useEventer ⟨[none], ["click"], false, false, true, false⟩).1) =
      0 :=
  ⟨rfl, rfl⟩

/-- Counterexample to C6 as stated: PAIRED with matching counts n = 2, but
the second ref's element is absent — only 1 registration is performed, not
n = 2. -/
theorem C6_absent_target_skips_registration :
    (adds (useEventer
        ⟨[some 5, none], ["a", "b"], true, false, false, false⟩).1) =
      [(5, "a")] ∧
    (HookInput.refs
        ⟨[some 5, none], ["a", "b"], true, false, false, false⟩).length =
      2 :=
  ⟨rfl, rfl⟩

/-- Counterexample to C8 as stated: PAIRED topology with a caller-supplied
signal — setup registers one pair (element 1, "keydown"), but the returned
teardown performs no deregistration at all (it is the early-returned bulk
abort; the per-index removal branch of the cleanup is unreachable), so the
registration is not matched by any deregistration. -/
theorem C8_paired_explicit_removal_unreachable :
    adds (useEventer
        ⟨[some 1], ["keydown"], true, false, false, true⟩).1 =
      [(1, "keydown")] ∧
    removes ((useEventer
        ⟨[some 1], ["keydown"], true, false, false, true⟩).2.getD []) =
      [] :=
  ⟨rfl, rfl⟩

/-- Counterexample to C10 as stated: BROADCAST, a caller-supplied signal,
one ref holding element 0 at setup but element 1 by teardown time —
`useEventer` removes from its setup-time snapshot (element 0) while the
variant `useListener` removes from the ref's current value (element 1), so
the two implementations perform different deregistrations. -/
theorem C10_snapshot_vs_reresolve_differ :
    (useEventer ⟨[some 0], ["click"], false, false, false, true⟩).2 =
      some [Effect.removeListener 0 "click"] ∧
    (useListenerRun ⟨[some 0], ["click"], false, false, false, true⟩
        [some 1]).2 =
      some [Effect.removeListener 1 "click"] ∧
    (useListenerRun ⟨[some 0], ["click"], false, false, false, true⟩
        [some 1]).2 ≠
      (useEventer ⟨[some 0], ["click"], false, false, false, true⟩).2 :=
  ⟨rfl, rfl, by decide⟩

/-! ## Characterizing the registrations and removals of the loops -/

/-- Registrations contributed by one target of the BROADCAST loop: all
event types when the target is present, nothing when absent. -/
lemma adds_broadcast_inner (onEach : Bool) (sg : Sig) (n : Option Nat)
    (events : List String) :
    adds (events.flatMap (fun evt =>
        (if onEach then [Effect.callHandler] else []) ++
        (match n with
         | some el => [Effect.addListener el evt sg]
         | none => []))) =
      (match n with
       | some el => events.map (fun evt => (el, evt))
       | none => []) := by
  induction events with
  | nil => rcases n <;> rfl
  | cons evt evts ihe =>
    rw [List.flatMap_cons, adds_append, ihe]
    rcases n <;> rcases onEach <;> simp [adds]

/-- Removals contributed by one target of the BROADCAST removal loop. -/
lemma removes_broadcast_inner (n : Option Nat) (events : List String) :
    removes (events.flatMap (fun evt =>
        match n with
        | some el => [Effect.removeListener el evt]
        | none => [])) =
      (match n with
       | some el => events.map (fun evt => (el, evt))
       | none => []) := by
  induction events with
  | nil => rcases n <;> rfl
  | cons evt evts ihe =>
    rw [List.flatMap_cons, removes_append, ihe]
    rcases n <;> simp [removes]

/-- The registrations of the BROADCAST loops are the cross product of the
present targets with the event types, targets outer, events inner. -/
lemma adds_broadcastSetup (onEach : Bool) (sg : Sig)
    (nodes : List (Option Nat)) (events : List String) :
    adds (broadcastSetup onEach sg nodes events) =
      nodes.flatMap (fun n =>
        match n with
        | some el => events.map (fun evt => (el, evt))
        | none => []) := by
  induction nodes with
  | nil => rfl
  | cons n ns ih =>
    simp only [broadcastSetup] at ih ⊢
    rw [List.flatMap_cons, List.flatMap_cons, adds_append, ih,
      adds_broadcast_inner]

/-- The removals of the BROADCAST removal loops are the cross product of
the present targets with the event types, targets outer, events inner. -/
lemma removes_broadcastTeardown (nodes : List (Option Nat))
    (events : List String) :
    removes (broadcastTeardown nodes events) =
      nodes.flatMap (fun n =>
        match n with
        | some el => events.map (fun evt => (el, evt))
        | none => []) := by
  induction nodes with
  | nil => rfl
  | cons n ns ih =>
    simp only [broadcastTeardown] at ih ⊢
    rw [List.flatMap_cons, List.flatMap_cons, removes_append, ih,
      removes_broadcast_inner]

/-- Counting the registrations of the BROADCAST loops: present targets
times event types. -/
lemma length_adds_broadcastSetup (onEach : Bool) (sg : Sig)
    (nodes : List (Option Nat)) (events : List String) :
    (adds (broadcastSetup onEach sg nodes events)).length =
      nodes.countP Option.isSome * events.length := by
  rw [adds_broadcastSetup]
  induction nodes with
  | nil => simp
  | cons n ns ih =>
    rw [List.flatMap_cons, List.length_append, ih]
    rcases n with _ | el <;>
      (simp [List.countP_cons, Option.isSome]; try ring)

/-- A pair is registered by the BROADCAST loops exactly when its element is
held by some ref and its event type is one of the requested types. -/
lemma mem_adds_broadcastSetup (onEach : Bool) (sg : Sig)
    (nodes : List (Option Nat)) (events : List String) (el : Nat)
    (evt : String) :
    (el, evt) ∈ adds (broadcastSetup onEach sg nodes events) ↔
      some el ∈ nodes ∧ evt ∈ events := by
  rw [adds_broadcastSetup, List.mem_flatMap]
  constructor
  · rintro ⟨n, hn, hmem⟩
    rcases n with _ | el2
    · simp at hmem
    · simp only [List.mem_map] at hmem
      obtain ⟨evt2, hevt2, heq⟩ := hmem
      obtain ⟨rfl, rfl⟩ := Prod.mk.injEq _ _ _ _ |>.mp heq.symm
      exact ⟨hn, hevt2⟩
  · rintro ⟨hel, hevt⟩
    refine ⟨some el, hel, ?_⟩
    show (el, evt) ∈ events.map (fun evt => (el, evt))
    simp only [List.mem_map]
    exact ⟨evt, hevt, rfl⟩

/-- Present/absent refs partition the ref list. -/
lemma countP_isSome_add_isNone (nodes : List (Option Nat)) :
    nodes.countP Option.isSome + nodes.countP Option.isNone =
      nodes.length := by
  induction nodes with
  | nil => rfl
  | cons n ns ih =>
    rcases n <;> simp [List.countP_cons, Option.isSome, Option.isNone] <;>
      omega

/-- The registrations of the PAIRED loop are the index-aligned pairs whose
target is present, in index order. -/
lemma adds_pairedSetup (onEach : Bool) (sg : Sig) :
    ∀ (ns : List (Option Nat)) (es : List String),
      adds (pairedSetup onEach sg ns es) =
        (ns.zip es).filterMap
          (fun p => p.1.map (fun el => (el, p.2))) := by
  intro ns
  induction ns with
  | nil => intro es; rfl
  | cons n ns ih =>
    intro es
    cases es with
    | nil => simp [pairedSetup, adds]
    | cons ev evs =>
      simp only [pairedSetup]
      rw [adds_append, adds_append, ih, List.zip_cons_cons,
        List.filterMap_cons]
      rcases n <;> rcases onEach <;> simp [adds]

/-- Counting the registrations of the PAIRED loop under matching counts:
exactly the present targets. -/
lemma length_adds_pairedSetup (onEach : Bool) (sg : Sig) :
    ∀ (ns : List (Option Nat)) (es : List String),
      ns.length = es.length →
      (adds (pairedSetup onEach sg ns es)).length =
        ns.countP Option.isSome := by
  intro ns
  induction ns with
  | nil => intro es h; rfl
  | cons n ns ih =>
    intro es h
    cases es with
    | nil => simp at h
    | cons ev evs =>
      simp only [pairedSetup]
      rw [adds_append, adds_append, List.length_append, List.length_append,
        ih evs (by simpa using h)]
      rcases n <;> rcases onEach <;>
        simp [adds, List.countP_cons, Option.isSome] <;> omega

/-- The hook-body actions before the registration loop (the factory call
and the optional call-once handler call) register nothing. -/
lemma adds_setup_head (b : Bool) (rest : List Effect) :
    adds (Effect.callFactory ::
        ((if b then [Effect.callHandler] else []) ++ rest)) =
      adds rest := by
  rcases b <;> simp [adds]

/-- As `adds_setup_head`, for removals. -/
lemma removes_setup_head (b : Bool) (rest : List Effect) :
    removes (Effect.callFactory ::
        ((if b then [Effect.callHandler] else []) ++ rest)) =
      removes rest := by
  rcases b <;> simp [removes]

/-- C5: under BROADCAST topology the registrations performed at setup are
the full cross product of targets and event types restricted to present
targets — their number plus the absent-target pairs equals
`refs.length * events.length`, and a pair is bound exactly when its
element is held by some ref and its event type was requested. -/
theorem C5_broadcast_cardinality (inp : HookInput)
    (h1 : inp.oneToOne = false) :
    (adds (useEventer inp).1).length +
        inp.refs.countP Option.isNone * inp.events.length =
      inp.refs.length * inp.events.length ∧
    (∀ el evt, (el, evt) ∈ adds (useEventer inp).1 ↔
      some el ∈ inp.refs ∧ evt ∈ inp.events) := by
  rw [useEventer_broadcast inp h1]
  constructor
  · show (adds (Effect.callFactory :: _)).length + _ = _
    rw [adds_setup_head, length_adds_broadcastSetup, ← Nat.add_mul,
      countP_isSome_add_isNone]
  · intro el evt
    show (el, evt) ∈ adds (Effect.callFactory :: _) ↔ _
    rw [adds_setup_head, mem_adds_broadcastSetup]

/-- Witness for C5: two refs (element 3 present, one absent), two events —
2 registrations, plus 1 * 2 absent pairs, equals 2 * 2; and (3, "a") is
bound. -/
theorem C5_broadcast_cardinality_witness :
    List.length
        (adds (useEventer
          ⟨[some 3, none], ["a", "b"], false, false, false,
            false⟩).1) +
        (HookInput.refs
            ⟨[some 3, none], ["a", "b"], false, false, false,
              false⟩).countP Option.isNone *
          (HookInput.events
              ⟨[some 3, none], ["a", "b"], false, false, false,
                false⟩).length =
      2 * 2 ∧
    ((3, "a") ∈ adds (useEventer
        ⟨[some 3, none], ["a", "b"], false, false, false, false⟩).1 ↔
      some 3 ∈ [some 3, none] ∧ "a" ∈ ["a", "b"]) :=
  ⟨(C5_broadcast_cardinality
        ⟨[some 3, none], ["a", "b"], false, false, false, false⟩ rfl).1,
   (C5_broadcast_cardinality
        ⟨[some 3, none], ["a", "b"], false, false, false, false⟩ rfl).2
     3 "a"⟩

/-- C6 (amended): under PAIRED topology with matching counts, the
registrations are the index-aligned pairs `(refs[i], events[i])` restricted
to the indices whose target is present — in index order, with no cross
pairing — so their number is the number of present targets (not
`refs.length`, which counts absent targets too). -/
theorem C6_paired_cardinality_amended (inp : HookInput)
    (h1 : inp.oneToOne = true) (h2 : inp.refs.length = inp.events.length) :
    adds (useEventer inp).1 =
      (inp.refs.zip inp.events).filterMap
        (fun p => p.1.map (fun el => (el, p.2))) ∧
    (adds (useEventer inp).1).length = inp.refs.countP Option.isSome := by
  rw [useEventer_paired inp h1 h2]
  constructor
  · show adds (Effect.callFactory :: _) = _
    rw [adds_setup_head, adds_pairedSetup]
  · show (adds (Effect.callFactory :: _)).length = _
    rw [adds_setup_head, length_adds_pairedSetup _ _ _ _ h2]

/-- Witness for C6 (amended): PAIRED, refs = [element 5, absent],
events = ["a", "b"] — the one registration is (5, "a"), matching the
1 present target. -/
theorem C6_paired_cardinality_amended_witness :
    adds (useEventer
        ⟨[some 5, none], ["a", "b"], true, true, true, false⟩).1 =
      [(5, "a")] ∧
    (adds (useEventer
        ⟨[some 5, none], ["a", "b"], true, true, true, false⟩).1).length =
      1 :=
  C6_paired_cardinality_amended
    ⟨[some 5, none], ["a", "b"], true, true, true, false⟩ rfl rfl

/-- C8 (amended): the explicit-removal teardown path is reachable only
under BROADCAST topology (the PAIRED branch early-returns the bulk abort,
leaving its per-index removal code dead); on it, the deregistration
sequence mirrors the registration sequence exactly — targets in the outer
loop, event types in the inner loop, each registration matched by exactly
one deregistration of the same (element, event type) pair with the shared
handler. -/
theorem C8_broadcast_teardown_mirrors (inp : HookInput)
    (h1 : inp.oneToOne = false) (h2 : inp.userSignal = true) :
    removes ((useEventer inp).2.getD []) = adds (useEventer inp).1 := by
  rw [useEventer_broadcast inp h1]
  show removes (cleanupClosure inp inp.refs) =
    adds (Effect.callFactory :: _)
  rw [adds_setup_head]
  simp only [cleanupClosure, h1, h2, Bool.not_true, Bool.false_eq_true,
    if_false]
  rw [removes_broadcastTeardown, adds_broadcastSetup]

/-- Witness for C8 (amended): BROADCAST over [element 0, absent,
element 2] × ["a", "b"] with a caller-supplied signal — the teardown's
removal list equals the setup's registration list. -/
theorem C8_broadcast_teardown_mirrors_witness :
    removes ((useEventer
        ⟨[some 0, none, some 2], ["a", "b"], false, false, false,
          true⟩).2.getD []) =
      adds (useEventer
        ⟨[some 0, none, some 2], ["a", "b"], false, false, false,
          true⟩).1 :=
  C8_broadcast_teardown_mirrors
    ⟨[some 0, none, some 2], ["a", "b"], false, false, false, true⟩
    rfl rfl

/-! ## Counting the handler and factory invocations -/

/-- The registration loops never invoke the callback factory (PAIRED). -/
lemma countFactory_pairedSetup (onEach : Bool) (sg : Sig)
    (ns : List (Option Nat)) (es : List String) :
    (pairedSetup onEach sg ns es).countP isFactoryCall = 0 := by
  rw [List.countP_eq_zero]
  intro e he
  rcases mem_pairedSetup_shape onEach sg ns es e he with h | h <;>
    rcases e <;> simp_all [isHandlerCall, isAdd, isFactoryCall]

/-- The registration loops never invoke the callback factory
(BROADCAST). -/
lemma countFactory_broadcastSetup (onEach : Bool) (sg : Sig)
    (nodes : List (Option Nat)) (events : List String) :
    (broadcastSetup onEach sg nodes events).countP isFactoryCall = 0 := by
  rw [List.countP_eq_zero]
  intro e he
  rcases mem_broadcastSetup_shape onEach sg nodes events e he with h | h <;>
    rcases e <;> simp_all [isHandlerCall, isAdd, isFactoryCall]

/-- Handler invocations contributed by one target of the BROADCAST loop:
one per event type when the call-per-binding flag is set — also for an
absent target, since `handler()` runs before the optional-chained
registration. -/
lemma countHandler_broadcast_inner (onEach : Bool) (sg : Sig)
    (n : Option Nat) (events : List String) :
    (events.flatMap (fun evt =>
        (if onEach then [Effect.callHandler] else []) ++
        (match n with
         | some el => [Effect.addListener el evt sg]
         | none => []))).countP isHandlerCall =
      if onEach then events.length else 0 := by
  induction events with
  | nil => rcases onEach <;> simp
  | cons evt evts ihe =>
    rw [List.flatMap_cons, List.countP_append, ihe]
    rcases onEach <;> rcases n <;>
      simp_all [List.countP_cons, List.countP_append, isHandlerCall] <;>
        omega

/-- Handler invocations of the BROADCAST loops with the call-per-binding
flag: one per (target, event type) pair, absent targets included. -/
lemma countHandler_broadcastSetup (onEach : Bool) (sg : Sig)
    (nodes : List (Option Nat)) (events : List String) :
    (broadcastSetup onEach sg nodes events).countP isHandlerCall =
      if onEach then nodes.length * events.length else 0 := by
  induction nodes with
  | nil => rcases onEach <;> simp [broadcastSetup]
  | cons n ns ih =>
    simp only [broadcastSetup] at ih ⊢
    rw [List.flatMap_cons, List.countP_append, ih,
      countHandler_broadcast_inner]
    rcases onEach <;> simp [Nat.succ_mul, Nat.add_comm]

/-- Handler invocations of the PAIRED loop with the call-per-binding flag:
one per index, absent targets included. -/
lemma countHandler_pairedSetup (onEach : Bool) (sg : Sig) :
    ∀ (ns : List (Option Nat)) (es : List String),
      ns.length = es.length →
      (pairedSetup onEach sg ns es).countP isHandlerCall =
        if onEach then ns.length else 0 := by
  intro ns
  induction ns with
  | nil => intro es h; rcases onEach <;> simp [pairedSetup]
  | cons n ns ih =>
    intro es h
    cases es with
    | nil => simp at h
    | cons ev evs =>
      simp only [pairedSetup]
      rw [List.countP_append, List.countP_append,
        ih evs (by simpa using h)]
      rcases onEach <;> rcases n <;>
        simp [List.countP_cons, isHandlerCall, Nat.add_comm]

/-- C7: in every completed activation cycle the callback factory is
invoked exactly once (one shared handler for all bindings of the cycle);
the total handler-invocation count at setup is one for the call-once flag
plus one per iterated pair for the call-per-binding flag; and with the
call-once flag set that invocation happens right after the factory call,
before any registration, whatever the number of bindings (zero
included). -/
theorem C7_single_factory_and_call_once (inp : HookInput)
    (hok : (useEventer inp).2.isSome = true) :
    (useEventer inp).1.countP isFactoryCall = 1 ∧
    (useEventer inp).1.countP isHandlerCall =
      (if inp.callHandlerOnce then 1 else 0) +
      (if inp.callHandlerOnEach then numPairs inp else 0) ∧
    (inp.callHandlerOnce = true →
      (useEventer inp).1.take 2 =
        [Effect.callFactory, Effect.callHandler]) := by
  rw [useEventer_isSome_iff] at hok
  by_cases h1 : inp.oneToOne = true
  · have h2 := hok h1
    rw [useEventer_paired inp h1 h2]
    refine ⟨?_, ?_, ?_⟩
    · show (Effect.callFactory :: _).countP isFactoryCall = 1
      rw [List.countP_cons, List.countP_append,
        countFactory_pairedSetup]
      rcases hc : inp.callHandlerOnce <;>
        simp [isFactoryCall, List.countP_cons]
    · show (Effect.callFactory :: _).countP isHandlerCall = _
      rw [List.countP_cons, List.countP_append,
        countHandler_pairedSetup _ _ _ _ h2]
      simp only [numPairs, h1, if_true]
      rcases hc : inp.callHandlerOnce <;>
        rcases he : inp.callHandlerOnEach <;>
          simp [isHandlerCall, List.countP_cons, Nat.add_comm]
    · intro hc
      simp [hc]
  · have h1f : inp.oneToOne = false := by simpa using h1
    rw [useEventer_broadcast inp h1f]
    refine ⟨?_, ?_, ?_⟩
    · show (Effect.callFactory :: _).countP isFactoryCall = 1
      rw [List.countP_cons, List.countP_append,
        countFactory_broadcastSetup]
      rcases hc : inp.callHandlerOnce <;>
        simp [isFactoryCall, List.countP_cons]
    · show (Effect.callFactory :: _).countP isHandlerCall = _
      rw [List.countP_cons, List.countP_append,
        countHandler_broadcastSetup]
      simp only [numPairs, h1f, Bool.false_eq_true, if_false]
      rcases hc : inp.callHandlerOnce <;>
        rcases he : inp.callHandlerOnEach <;>
          simp [isHandlerCall, List.countP_cons, Nat.add_comm]
    · intro hc
      simp [hc]

/-- Witness for C7 at a zero-binding input (no refs, no events,
call-once set): the factory runs once, the handler runs exactly once,
and the trace begins factory-then-handler. -/
theorem C7_single_factory_and_call_once_witness :
    (useEventer ⟨[], [], false, true, false, false⟩).1.countP
        isFactoryCall = 1 ∧
    (useEventer ⟨[], [], false, true, false, false⟩).1.countP
        isHandlerCall =
      (if HookInput.callHandlerOnce ⟨[], [], false, true, false, false⟩
        then 1 else 0) +
      (if HookInput.callHandlerOnEach ⟨[], [], false, true, false, false⟩
        then numPairs ⟨[], [], false, true, false, false⟩ else 0) ∧
    (HookInput.callHandlerOnce ⟨[], [], false, true, false, false⟩ =
        true →
      (useEventer ⟨[], [], false, true, false, false⟩).1.take 2 =
        [Effect.callFactory, Effect.callHandler]) :=
  C7_single_factory_and_call_once ⟨[], [], false, true, false, false⟩ rfl

/-! ## The call-per-binding interleaving (C2) -/

/-- A trace whose additions are all handler-preceded, followed by one with
that property however it is entered, keeps the property. -/
lemma addsPrecededFrom_append :
    ∀ (xs ys : List Effect) (prev : Effect),
      addsPrecededFrom prev xs = true →
      (∀ p, addsPrecededFrom p ys = true) →
      addsPrecededFrom prev (xs ++ ys) = true := by
  intro xs
  induction xs with
  | nil => intro ys prev _ hy; exact hy prev
  | cons x rest ih =>
    intro ys prev hx hy
    rw [List.cons_append]
    simp only [addsPrecededFrom, Bool.and_eq_true] at hx ⊢
    exact ⟨hx.1, ih ys x hx.2 hy⟩

/-- Concatenating blocks that each keep additions handler-preceded from
any entry point keeps the property. -/
lemma addsPrecededFrom_flatMap {α : Type} (f : α → List Effect)
    (hf : ∀ a prev, addsPrecededFrom prev (f a) = true) :
    ∀ (l : List α) (prev : Effect),
      addsPrecededFrom prev (l.flatMap f) = true := by
  intro l
  induction l with
  | nil => intro prev; rfl
  | cons a rest ih =>
    intro prev
    rw [List.flatMap_cons]
    exact addsPrecededFrom_append _ _ _ (hf a prev) ih

/-- In the PAIRED loop with the call-per-binding flag, every
`addEventListener` call is immediately preceded by a handler
invocation. -/
lemma addsPrecededFrom_pairedSetup (sg : Sig) :
    ∀ (ns : List (Option Nat)) (es : List String) (prev : Effect),
      addsPrecededFrom prev (pairedSetup true sg ns es) = true := by
  intro ns
  induction ns with
  | nil => intro es prev; rfl
  | cons n ns ih =>
    intro es prev
    cases es with
    | nil => rfl
    | cons ev evs =>
      simp only [pairedSetup]
      rcases n <;> simp [addsPrecededFrom, isAdd, isHandlerCall, ih]

/-- In the BROADCAST loops with the call-per-binding flag, every
`addEventListener` call is immediately preceded by a handler
invocation. -/
lemma addsPrecededFrom_broadcastSetup (sg : Sig)
    (nodes : List (Option Nat)) (events : List String) (prev : Effect) :
    addsPrecededFrom prev (broadcastSetup true sg nodes events) = true := by
  rw [broadcastSetup]
  refine addsPrecededFrom_flatMap _ (fun n p => ?_) nodes prev
  refine addsPrecededFrom_flatMap _ (fun evt p2 => ?_) events p
  rcases n <;> simp [addsPrecededFrom, isAdd, isHandlerCall]

/-- C2 (amended): with the call-per-binding flag set (and the call-once
flag clear, so its extra invocation does not enter the count), the number
of handler invocations at setup equals the number of pairs the loops
iterate over — `refs.length` (PAIRED) or `refs.length * events.length`
(BROADCAST) — **including** pairs whose target is absent, since
`handler()` runs before the optional-chained `addEventListener`; and
every registration performed is immediately preceded by its handler
invocation. -/
theorem C2_call_per_binding_amended (inp : HookInput)
    (hok : (useEventer inp).2.isSome = true)
    (he : inp.callHandlerOnEach = true)
    (hc : inp.callHandlerOnce = false) :
    (useEventer inp).1.countP isHandlerCall = numPairs inp ∧
    addsPreceded (useEventer inp).1 = true := by
  rw [useEventer_isSome_iff] at hok
  by_cases h1 : inp.oneToOne = true
  · have h2 := hok h1
    rw [useEventer_paired inp h1 h2]
    constructor
    · show (Effect.callFactory :: _).countP isHandlerCall = _
      rw [List.countP_cons, List.countP_append,
        countHandler_pairedSetup _ _ _ _ h2]
      simp [hc, he, numPairs, h1, isHandlerCall]
    · show addsPreceded (Effect.callFactory :: _) = true
      simp only [addsPreceded, hc, he, Bool.false_eq_true, if_false,
        List.nil_append, Bool.and_eq_true]
      exact ⟨rfl, addsPrecededFrom_pairedSetup _ _ _ _⟩
  · have h1f : inp.oneToOne = false := by simpa using h1
    rw [useEventer_broadcast inp h1f]
    constructor
    · show (Effect.callFactory :: _).countP isHandlerCall = _
      rw [List.countP_cons, List.countP_append,
        countHandler_broadcastSetup]
      simp [hc, he, numPairs, h1f, isHandlerCall]
    · show addsPreceded (Effect.callFactory :: _) = true
      simp only [addsPreceded, hc, he, Bool.false_eq_true, if_false,
        List.nil_append, Bool.and_eq_true]
      exact ⟨rfl, addsPrecededFrom_broadcastSetup _ _ _ _⟩

/-- Witness for C2 (amended): BROADCAST over [element 0, absent] × ["x"]
with the call-per-binding flag — 2 handler invocations (2 pairs iterated,
one absent) and every registration handler-preceded. -/
theorem C2_call_per_binding_amended_witness :
    (useEventer ⟨[some 0, none], ["x"], false, false, true, false⟩).1.countP
        isHandlerCall =
      numPairs ⟨[some 0, none], ["x"], false, false, true, false⟩ ∧
    addsPreceded
        (useEventer ⟨[some 0, none], ["x"], false, false, true,
          false⟩).1 =
      true :=
  C2_call_per_binding_amended
    ⟨[some 0, none], ["x"], false, false, true, false⟩ rfl rfl rfl

/-! ## Teardown completeness on the default-signal path (C4) -/

/-- Every registration of the PAIRED loop carries the loop's signal. -/
lemma allAdds_pairedSetup (onEach : Bool) (sg : Sig) :
    ∀ (ns : List (Option Nat)) (es : List String),
      allAddsWithSig sg (pairedSetup onEach sg ns es) = true := by
  intro ns
  induction ns with
  | nil => intro es; rfl
  | cons n ns ih =>
    intro es
    cases es with
    | nil => rfl
    | cons ev evs =>
      simp only [allAddsWithSig] at ih ⊢
      simp only [pairedSetup, List.all_append]
      rcases onEach <;> rcases n <;> simp_all <;> exact ih evs

/-- Every registration contributed by one BROADCAST target carries the
loop's signal. -/
lemma allAdds_broadcast_inner (onEach : Bool) (sg : Sig) (n : Option Nat) :
    ∀ (events : List String),
      allAddsWithSig sg (events.flatMap (fun evt =>
        (if onEach then [Effect.callHandler] else []) ++
        (match n with
         | some el => [Effect.addListener el evt sg]
         | none => []))) = true := by
  intro events
  induction events with
  | nil => rfl
  | cons evt evts ihe =>
    simp only [allAddsWithSig] at ihe ⊢
    rw [List.flatMap_cons, List.all_append, ihe]
    rcases onEach <;> rcases n <;> simp_all

/-- Every registration of the BROADCAST loops carries the loop's
signal. -/
lemma allAdds_broadcastSetup (onEach : Bool) (sg : Sig)
    (nodes : List (Option Nat)) (events : List String) :
    allAddsWithSig sg (broadcastSetup onEach sg nodes events) = true := by
  induction nodes with
  | nil => rfl
  | cons n ns ih =>
    simp only [broadcastSetup, allAddsWithSig] at ih ⊢
    rw [List.flatMap_cons, List.all_append]
    have h1 := allAdds_broadcast_inner onEach sg n events
    simp only [allAddsWithSig] at h1
    rw [h1, ih]
    rfl

/-- `addEventListener` only ever adds the registration it was given. -/
lemma mem_addL (s : DomState) (el : Nat) (evt : String) (sg : Sig)
    (l : Listener) (hl : l ∈ addL s el evt sg) :
    l ∈ s ∨ l = ⟨el, evt, sg⟩ := by
  rw [addL] at hl
  split at hl
  · exact Or.inl hl
  · rcases List.mem_append.mp hl with h | h
    · exact Or.inl h
    · exact Or.inr (List.mem_singleton.mp h)

/-- Interpreting a trace whose registrations all carry the internal
controller's signal preserves the invariant that every live registration
carries it. -/
lemma runEffects_ctrl :
    ∀ (es : List Effect) (s : DomState),
      allAddsWithSig Sig.ctrl es = true →
      (∀ l ∈ s, l.sg = Sig.ctrl) →
      ∀ l ∈ runEffects s es, l.sg = Sig.ctrl := by
  intro es
  induction es with
  | nil => intro s _ hs l hl; exact hs l hl
  | cons e rest ih =>
    intro s h hs
    simp only [allAddsWithSig, List.all_cons, Bool.and_eq_true] at h
    obtain ⟨h1, h2⟩ := h
    rw [runEffects, List.foldl_cons]
    refine ih (runEffect s e) (by simpa [allAddsWithSig] using h2) ?_
    intro l hl
    cases e with
    | addListener el evt sg2 =>
      have hsg : sg2 = Sig.ctrl := by simpa using h1
      rcases mem_addL s el evt sg2 l hl with hmem | rfl
      · exact hs l hmem
      · exact hsg
    | removeListener el evt => exact hs l (List.mem_filter.mp hl).1
    | abortController => exact hs l (List.mem_filter.mp hl).1
    | callFactory => exact hs l hl
    | callHandler => exact hs l hl
    | throwErr msg => exact hs l hl

/-- Aborting the internal controller clears a state whose registrations
all carry its signal. -/
lemma abortL_of_ctrl (s : DomState) (hs : ∀ l ∈ s, l.sg = Sig.ctrl) :
    abortL s = [] := by
  rw [abortL, List.filter_eq_nil_iff]
  intro l hl
  simp [hs l hl]

/-- C4: when the caller supplied no custom cancellation signal, every
registration of the cycle was made under the internal controller's signal,
and the returned teardown — the single bulk `controller.abort()`, on the
PAIRED early-return path as well as on the BROADCAST default path —
deregisters all of them: starting from no registrations, after setup and
teardown no registration is live and no dispatch invokes the handler. -/
theorem C4_default_teardown_complete (inp : HookInput) (td : List Effect)
    (hu : inp.userSignal = false)
    (hok : (useEventer inp).2 = some td) :
    runEffects (runEffects [] (useEventer inp).1) td = [] ∧
    (∀ el evt,
      triggers (runEffects (runEffects [] (useEventer inp).1) td) el evt =
        false) := by
  have hsg : effSig inp.userSignal = Sig.ctrl := by simp [effSig, hu]
  have hall : allAddsWithSig Sig.ctrl (useEventer inp).1 = true ∧
      td = [Effect.abortController] := by
    by_cases h1 : inp.oneToOne = true
    · by_cases h2 : inp.refs.length = inp.events.length
      · rw [useEventer_paired inp h1 h2] at hok ⊢
        rw [hsg]
        refine ⟨?_, by simpa using hok.symm⟩
        show allAddsWithSig Sig.ctrl (Effect.callFactory :: _) = true
        simp only [allAddsWithSig, List.all_cons, List.all_append,
          Bool.and_eq_true]
        refine ⟨trivial, ?_, ?_⟩
        · rcases inp.callHandlerOnce <;> simp
        · simpa [allAddsWithSig] using
            allAdds_pairedSetup inp.callHandlerOnEach Sig.ctrl
              inp.refs inp.events
      · rw [useEventer_mismatch inp h1 h2] at hok
        cases hok
    · have h1f : inp.oneToOne = false := by simpa using h1
      rw [useEventer_broadcast inp h1f] at hok ⊢
      rw [hsg]
      refine ⟨?_, ?_⟩
      · show allAddsWithSig Sig.ctrl (Effect.callFactory :: _) = true
        simp only [allAddsWithSig, List.all_cons, List.all_append,
          Bool.and_eq_true]
        refine ⟨trivial, ?_, ?_⟩
        · rcases inp.callHandlerOnce <;> simp
        · simpa [allAddsWithSig] using
            allAdds_broadcastSetup inp.callHandlerOnEach Sig.ctrl
              inp.refs inp.events
      · have : cleanupClosure inp inp.refs = [Effect.abortController] := by
          simp [cleanupClosure, hu]
        simp only [this] at hok
        simpa using hok.symm
  obtain ⟨hall1, rfl⟩ := hall
  have hinv : ∀ l ∈ runEffects [] (useEventer inp).1, l.sg = Sig.ctrl :=
    runEffects_ctrl (useEventer inp).1 [] hall1 (by intro l hl; cases hl)
  have hfin :
      runEffects (runEffects [] (useEventer inp).1)
        [Effect.abortController] = [] := by
    show abortL (runEffects [] (useEventer inp).1) = []
    exact abortL_of_ctrl _ hinv
  refine ⟨hfin, ?_⟩
  intro el evt
  rw [hfin]
  rfl

/-- Witness for C4: PAIRED over [element 7] × ["click"], no user signal —
after setup and the returned teardown nothing is registered and
dispatching "click" to element 7 no longer invokes the handler. -/
theorem C4_default_teardown_complete_witness :
    runEffects
        (runEffects []
          (useEventer ⟨[some 7], ["click"], true, false, false,
            false⟩).1)
        [Effect.abortController] = [] ∧
    (∀ el evt,
      triggers
          (runEffects
            (runEffects []
              (useEventer ⟨[some 7], ["click"], true, false, false,
                false⟩).1)
            [Effect.abortController]) el evt =
        false) :=
  C4_default_teardown_complete
    ⟨[some 7], ["click"], true, false, false, false⟩
    [Effect.abortController] rfl rfl

/-! ## Teardown never throws (C9) -/

/-- A trace of `removeEventListener` and `abort` actions only — the only
actions a returned cleanup closure performs — executes without error under
any behaviour of the user-written factory and handler and from any DOM
state: those two DOM primitives never throw, and the optional chaining in
the source already skipped absent targets when the trace was formed. -/
lemma execEffects_removes_abort :
    ∀ (es : List Effect),
      (∀ e ∈ es, isRemove e = true ∨ e = Effect.abortController) →
      ∀ (ff hf : Bool) (s : DomState),
        execEffects ff hf s es = Except.ok (runEffects s es) := by
  intro es
  induction es with
  | nil => intro _ ff hf s; rfl
  | cons e rest ih =>
    intro h ff hf s
    have hrest : ∀ e2 ∈ rest, isRemove e2 = true ∨
        e2 = Effect.abortController :=
      fun e2 h2 => h e2 (List.mem_cons_of_mem _ h2)
    rcases h e (List.mem_cons_self e rest) with hr | rfl
    · obtain ⟨el, evt, rfl⟩ := (isRemove_iff e).mp hr
      show execEffects ff hf s (Effect.removeListener el evt :: rest) = _
      simp only [execEffects, execEffect, runEffects, List.foldl_cons]
      exact ih hrest ff hf (removeL s el evt)
    · show execEffects ff hf s (Effect.abortController :: rest) = _
      simp only [execEffects, execEffect, runEffects, List.foldl_cons]
      exact ih hrest ff hf (abortL s)

/-- C9: for every input whose setup completed, the returned teardown
executes without raising an error — whatever the user-written factory and
handler would do if invoked (they are not invoked at teardown), from any
DOM state, and in particular regardless of targets that were absent at
setup: teardown consists solely of the non-throwing primitives
`removeEventListener` and `controller.abort()`. -/
theorem C9_teardown_never_throws (inp : HookInput) (td : List Effect)
    (hok : (useEventer inp).2 = some td) (ff hf : Bool) (s : DomState) :
    execEffects ff hf s td = Except.ok (runEffects s td) := by
  apply execEffects_removes_abort
  intro e hetd
  by_cases h1 : inp.oneToOne = true
  · by_cases h2 : inp.refs.length = inp.events.length
    · rw [useEventer_paired inp h1 h2] at hok
      have htd : td = [Effect.abortController] := by simpa using hok.symm
      subst htd
      exact Or.inr (List.mem_singleton.mp hetd)
    · rw [useEventer_mismatch inp h1 h2] at hok
      cases hok
  · have h1f : inp.oneToOne = false := by simpa using h1
    rw [useEventer_broadcast inp h1f] at hok
    have htd : td = cleanupClosure inp inp.refs := by simpa using hok.symm
    subst htd
    rw [cleanupClosure] at hetd
    by_cases hu : inp.userSignal = true
    · simp only [hu, Bool.not_true, Bool.false_eq_true, if_false, h1f]
        at hetd
      exact Or.inl
        (mem_broadcastTeardown_shape inp.refs inp.events e hetd)
    · have huf : inp.userSignal = false := by simpa using hu
      simp only [huf, Bool.not_false, if_true] at hetd
      exact Or.inr (List.mem_singleton.mp hetd)

/-- Witness for C9: BROADCAST over one present ref with a user signal —
the explicit-removal teardown executes without error from the empty state
even when handler and factory would both throw. -/
theorem C9_teardown_never_throws_witness :
    execEffects true true []
        [Effect.removeListener 0 "click"] =
      Except.ok
        (runEffects [] [Effect.removeListener 0 "click"]) :=
  C9_teardown_never_throws
    ⟨[some 0], ["click"], false, false, false, true⟩
    [Effect.removeListener 0 "click"] rfl true true []

/-! ## Snapshot vs re-resolution (C10) -/

/-- The two hooks' cleanup closures are the same function of the node list
they act on — the difference between the implementations is only **which**
node list that is (the setup-time snapshot vs the teardown-time ref
contents). -/
lemma useListenerCleanup_eq_cleanupClosure (inp : HookInput)
    (ns : List (Option Nat)) :
    useListenerCleanup inp ns = cleanupClosure inp ns := by
  by_cases hu : inp.userSignal = true
  · simp [useListenerCleanup, cleanupClosure, hu]
  · have huf : inp.userSignal = false := by simpa using hu
    simp [useListenerCleanup, cleanupClosure, huf]

/-- C10 (amended): `useEventer` (snapshot at setup) and the variant
`useListener` (re-resolution at teardown) always perform identical
registrations; their deregistrations coincide whenever each ref resolves
at teardown time to the same value it had at setup — in particular always
on the default-signal path (bulk abort) and, because of the shared PAIRED
early return, on every PAIRED input.  They are **not** equivalent for
every change of ref contents (see the counterexample). -/
theorem C10_snapshot_equivalence_amended (inp : HookInput)
    (refsNow : List (Option Nat)) :
    (useListenerRun inp refsNow).1 = (useEventer inp).1 ∧
    (refsNow = inp.refs → useListenerRun inp refsNow = useEventer inp) ∧
    (inp.userSignal = false → useListenerRun inp refsNow = useEventer inp)
    := by
  refine ⟨?_, ?_, ?_⟩
  · by_cases hb :
        (inp.oneToOne && inp.refs.length != inp.events.length) = true
    · simp [useEventer, useListenerRun, hb]
    · by_cases h1 : inp.oneToOne = true <;>
        simp [useEventer, useListenerRun, hb, h1]
  · rintro rfl
    by_cases hb :
        (inp.oneToOne && inp.refs.length != inp.events.length) = true
    · simp [useEventer, useListenerRun, hb]
    · by_cases h1 : inp.oneToOne = true <;>
        simp [useEventer, useListenerRun, hb, h1,
          useListenerCleanup_eq_cleanupClosure]
  · intro hu
    by_cases hb :
        (inp.oneToOne && inp.refs.length != inp.events.length) = true
    · simp [useEventer, useListenerRun, hb]
    · by_cases h1 : inp.oneToOne = true <;>
        simp [useEventer, useListenerRun, cleanupClosure,
          useListenerCleanup, hb, h1, hu]

/-- Witness for C10 (amended): BROADCAST with a user signal, ref still
holding element 4 at teardown — both hooks agree end to end; and their
setups agree even when the ref has moved to element 9. -/
theorem C10_snapshot_equivalence_amended_witness :
    (useListenerRun ⟨[some 4], ["click"], false, false, false, true⟩
          [some 9]).1 =
      (useEventer ⟨[some 4], ["click"], false, false, false, true⟩).1 ∧
    useListenerRun ⟨[some 4], ["click"], false, false, false, true⟩
        [some 4] =
      useEventer ⟨[some 4], ["click"], false, false, false, true⟩ :=
  ⟨(C10_snapshot_equivalence_amended
      ⟨[some 4], ["click"], false, false, false, true⟩ [some 9]).1,
   (C10_snapshot_equivalence_amended
      ⟨[some 4], ["click"], false, false, false, true⟩ [some 4]).2.1 rfl⟩
